import Mathlib

/-!
Verification of the client query resolution core of the edgedns repository
(`libedgedns/src/client_queries_handler.rs` and `libedgedns/src/pending_query.rs`).

The embedding below translates the handler's state and transitions into pure
Lean functions.  Shared mutable state (the pending-query table, the upstream
server registry, the atomic waiting-clients counter) becomes an explicit
`HandlerState` record that each transition consumes and returns.  External
collaborators that live outside the two source files (the cache, the DNS codec,
the jump hasher) are collected in an `Env` record of abstract functions,
modelled from the spec.  Randomness (the probe target choice) and the coarse
clock become explicit arguments.  The live-index list is read by the handler at
two distinct program points with the lock released in between (the all-down
shortcut reads `upstream_servers_live_arc`, while `pick_upstream` references a
separate live list), so the two snapshots are separate arguments.
-/

namespace EdgeDNS

/-! ## Association-list primitives

The source stores the pending-query table and the upstream registry in
`HashMap`s.  We model them as association lists with first-match lookup;
`update_first_key` mirrors `get_mut` followed by a field mutation, and
`erase_first_key` mirrors `remove`. -/

def lookup_key {K V : Type} [DecidableEq K] (k : K) : List (K × V) → Option V
  | [] => none
  | p :: t => if p.1 = k then some p.2 else lookup_key k t

def update_first_key {K V : Type} [DecidableEq K] (k : K) (f : V → V) :
    List (K × V) → List (K × V)
  | [] => []
  | p :: t => if p.1 = k then (p.1, f p.2) :: t else p :: update_first_key k f t

def erase_first_key {K V : Type} [DecidableEq K] (k : K) :
    List (K × V) → List (K × V)
  | [] => []
  | p :: t => if p.1 = k then t else p :: erase_first_key k t

def insert_key {K V : Type} [DecidableEq K] (k : K) (v : V)
    (t : List (K × V)) : List (K × V) :=
  (k, v) :: erase_first_key k t

/-! ## Constants

Both constants are declared in the crate root (`lib.rs`), which is not part of
the excerpt; §6 of the spec names them.  Modelled from the spec: the concrete
values are immaterial to every theorem except that the probe delay is positive,
which any millisecond rate limit satisfies. -/

def UPSTREAM_PROBES_DELAY_MS : Nat := 1000

def UPSTREAM_QUERY_MAX_TIMEOUT_MS : Nat := 10000

/-! ## Data model -/

/-- Modelled from the spec (§3): the canonical question identity produced by
`NormalizedQuestion::key()`; the dns module is not part of the excerpt. -/
structure NormalizedQuestionKey where
  qname : List Nat
  qtype : Nat
  dnssec : Bool
deriving DecidableEq, Repr

/-- Modelled from the spec (§3): name, type, routing flags and transaction id
of a client DNS question; defined in the dns module, outside the excerpt. -/
structure NormalizedQuestion where
  qname : List Nat
  qtype : Nat
  dnssec : Bool
  tid : Nat
deriving DecidableEq, Repr

def NormalizedQuestion.key (q : NormalizedQuestion) : NormalizedQuestionKey :=
  { qname := q.qname, qtype := q.qtype, dnssec := q.dnssec }

/-- Modelled from the spec (§6): the minimal wire form returned by
`build_query_packet`, carrying the upstream transaction id. -/
structure NormalizedQuestionMinimal where
  tid : Nat
deriving DecidableEq, Repr

/-- Structure `PendingQueryKey` from pending_query.rs. -/
structure PendingQueryKey where
  normalized_question_key : NormalizedQuestionKey
  custom_hash : Nat × Nat
deriving DecidableEq, Repr

/-- Constructor `PendingQueryKey::new` from pending_query.rs: the custom hash is pinned
to `(0, 0)`. -/
def PendingQueryKey.new (normalized_question_key : NormalizedQuestionKey) :
    PendingQueryKey :=
  { normalized_question_key, custom_hash := (0, 0) }

/-- Modelled from the spec (§3): a per-query view naming a candidate server by
socket address; upstream_server.rs is not part of the excerpt.  Socket
addresses are modelled as naturals. -/
structure UpstreamServerForQuery where
  socket_addr : Nat
deriving DecidableEq, Repr, Inhabited

/-- Modelled from the spec (§3): the registry entry for a configured upstream
server (defined in upstream_server.rs, outside the excerpt).  Only the fields
the handler touches are modelled: the pending-attempt count, the probe rate
limit timestamp, the consecutive-failure counter and the offline flag.  The
registry key plays the role of the socket address. -/
structure UpstreamServer where
  pending_queries_count : Nat
  last_probe_ts : Option Nat
  failures : Nat
  offline : Bool
deriving DecidableEq, Repr, Inhabited

/-- Modelled from the spec (§4.1): `record_failure` increments the
consecutive-failure counter (live-set maintenance is outside this core). -/
def record_failure (srv : UpstreamServer) : UpstreamServer :=
  { srv with failures := srv.failures + 1 }

/-- Modelled from the spec (§3): a request awaiting a response
(client_query.rs is outside the excerpt). -/
structure ClientQuery where
  normalized_question : NormalizedQuestion
  custom_hash : Nat × Nat
  upstream_servers_for_query : List UpstreamServerForQuery
deriving DecidableEq, Repr

/-- Structure `PendingQuery` from pending_query.rs (the oneshot sender and varz handle
are concurrency/metrics artifacts and are not modelled). -/
structure PendingQuery where
  normalized_question_minimal : NormalizedQuestionMinimal
  local_port : Nat
  client_queries : List ClientQuery
  ts : Nat
  upstream_server_idx : Nat
  probed_socket_addr : Option Nat
  custom_hash : Nat × Nat
deriving DecidableEq, Repr

/-- A DNS packet on the wire, as raw bytes. -/
abbrev Packet := List Nat

inductive LoadBalancingMode
  | Fallback
  | Uniform
  | P2
deriving DecidableEq, Repr

structure Config where
  max_waiting_clients : Nat
  lbmode : LoadBalancingMode
deriving DecidableEq, Repr

/-- The handler's shared mutable state: the pending table, the waiting-clients
counter and the upstream registry, plus the immutable configuration. -/
structure HandlerState where
  config : Config
  pending_queries : List (PendingQueryKey × PendingQuery)
  waiting_clients_count : Nat
  upstream_servers : List (Nat × UpstreamServer)
deriving DecidableEq, Repr

/-- External collaborators, modelled from the spec (§6): the cache lookup
`get2`, the two codec entry points, and the jump hasher. -/
structure Env where
  cache : NormalizedQuestion → Nat × Nat → Option Packet
  build_query_packet : NormalizedQuestion →
    Except Unit (Packet × NormalizedQuestionMinimal)
  build_servfail_packet : NormalizedQuestion → Except Unit Packet
  jumphasher : List Nat → Nat → Nat

/-! ## Load balancing (`pick_upstream`, lines 476–511)

The source method references a live-index list `upstream_servers_live` that is
not in scope at the method (spec §9 flags this); following the spec's note the
live slice is passed explicitly.  The P2 arm indexes the server registry by a
live index, so the per-index pending count is likewise passed as a function. -/

def pick_upstream (q : NormalizedQuestion) (pending_count : Nat → Nat)
    (upstream_servers_live : List Nat) (jumphasher : List Nat → Nat → Nat)
    (is_retry : Bool) (lbmode : LoadBalancingMode) : Except String Nat :=
  let live_count := upstream_servers_live.length
  if live_count = 0 then Except.error "All upstream servers are down"
  else
    match lbmode with
    | LoadBalancingMode.Fallback => Except.ok (upstream_servers_live.getD 0 0)
    | LoadBalancingMode.Uniform =>
        let i0 := jumphasher q.qname live_count
        let i := if is_retry then (i0 + 1) % live_count else i0
        Except.ok (upstream_servers_live.getD i 0)
    | LoadBalancingMode.P2 =>
        let busy_map :=
          (upstream_servers_live.map fun i => (i, pending_count i)).mergeSort
            (fun a b => a.2 ≤ b.2)
        let i := if busy_map.length = 1 then 0
          else (q.tid + (if is_retry then 1 else 0)) % 2
        Except.ok (busy_map.getD i (0, 0)).1

/-- Outcome of `new_pending_query` (lines 513–546).  A failing
`build_query_packet` is unwrapped with `expect`, which panics; the random
outbound-socket draw is immaterial to the claims and not modelled. -/
inductive BuildOutcome
  | panicked (msg : String)
  | err (e : String)
  | built (query_packet : Packet)
      (normalized_question_minimal : NormalizedQuestionMinimal)
      (upstream_server_idx : Nat)
deriving DecidableEq, Repr

def new_pending_query (env : Env) (q : NormalizedQuestion)
    (pending_count : Nat → Nat) (upstream_servers_live : List Nat)
    (is_retry : Bool) (lbmode : LoadBalancingMode) : BuildOutcome :=
  match env.build_query_packet q with
  | Except.error _ => BuildOutcome.panicked "Unable to build a new query packet"
  | Except.ok (query_packet, normalized_question_minimal) =>
      match pick_upstream q pending_count upstream_servers_live env.jumphasher
          is_retry lbmode with
      | Except.error e => BuildOutcome.err e
      | Except.ok idx =>
          BuildOutcome.built query_packet normalized_question_minimal idx

/-! ## Probing offline servers (`maybe_send_probe_to_offline_servers`,
lines 178–217)

The random draw among the collected servers and the coarse clock become the
explicit `choice` and `now` arguments.  A returned event `(addr, now)` means a
probe packet was sent to `addr` at time `now`; the UDP send itself is outside
the model (the timestamp is stamped before the send in the source, so an IO
error does not undo it). -/

structure ProbeStep where
  candidates : List UpstreamServerForQuery
  choice : Nat
  now : Nat
deriving DecidableEq, Repr

def stamp_probe (servers : List (Nat × UpstreamServer)) (addr now : Nat) :
    List (Nat × UpstreamServer) :=
  update_first_key addr (fun srv => { srv with last_probe_ts := some now }) servers

def maybe_send_probe_to_offline_servers
    (servers : List (Nat × UpstreamServer)) (st : ProbeStep) :
    Option (Nat × Nat) × List (Nat × UpstreamServer) :=
  if st.candidates.isEmpty then (none, servers)
  else
    let offline_servers := st.candidates.filterMap fun u =>
      (lookup_key u.socket_addr servers).map fun srv => (u.socket_addr, srv)
    if offline_servers.isEmpty then (none, servers)
    else
      let chosen := offline_servers.getD (st.choice % offline_servers.length)
        (0, default)
      match chosen.2.last_probe_ts with
      | some t =>
          if st.now - t < UPSTREAM_PROBES_DELAY_MS then (none, servers)
          else ((some (chosen.1, st.now)), stamp_probe servers chosen.1 st.now)
      | none => ((some (chosen.1, st.now)), stamp_probe servers chosen.1 st.now)

/-- Runs a sequence of probe attempts, collecting the probe send events
`(socket address, send time)` in order. -/
def run_probes (servers : List (Nat × UpstreamServer)) :
    List ProbeStep → List (Nat × Nat)
  | [] => []
  | st :: rest =>
      match maybe_send_probe_to_offline_servers servers st with
      | (some ev, servers2) => ev :: run_probes servers2 rest
      | (none, servers2) => run_probes servers2 rest

/-! ## Degradation to stale (`maybe_respond_with_stale_entry`, lines 148–165) -/

/-- What a single client receives from the degradation path: a stale cached
packet, a synthesized SERVFAIL, or nothing at all. -/
inductive ClientResponse
  | stale (p : Packet)
  | servfail (p : Packet)
  | noResponse
deriving DecidableEq, Repr

def maybe_respond_with_stale_entry (env : Env) (cq : ClientQuery) :
    ClientResponse :=
  match env.cache cq.normalized_question cq.custom_hash with
  | some p => ClientResponse.stale p
  | none =>
      match env.build_servfail_packet cq.normalized_question with
      | Except.ok p => ClientResponse.servfail p
      | Except.error _ => ClientResponse.noResponse

/-- Function `maybe_respond_to_all_clients_with_stale_entry` (lines 167–176). -/
def maybe_respond_to_all_clients_with_stale_entry (env : Env)
    (pq : PendingQuery) : List ClientResponse :=
  pq.client_queries.map (maybe_respond_with_stale_entry env)

/-! ## Admission control (`cap_pending_queries`, lines 113–130)

`map.keys().next()` followed by `map.remove` drops one entry of the unordered
map; the model removes the head of the association list.  The `fetch_sub` is
natural-number subtraction; the source's `assert!(prev_count >= clients_count)`
is discharged by the counting invariant proved below. -/

def cap_pending_queries (s : HandlerState) : Bool × HandlerState :=
  if s.waiting_clients_count < s.config.max_waiting_clients then (false, s)
  else
    match s.pending_queries with
    | [] => (false, s)
    | (_k, pq) :: rest =>
        (true,
          { s with
            pending_queries := rest
            waiting_clients_count :=
              s.waiting_clients_count - pq.client_queries.length })

/-! ## Coalescing (`maybe_add_to_existing_pending_query`, lines 132–146) -/

def maybe_add_to_existing_pending_query (s : HandlerState)
    (key : PendingQueryKey) (cq : ClientQuery) : Bool × HandlerState :=
  match lookup_key key s.pending_queries with
  | none => (false, s)
  | some _ =>
      (true,
        { s with
          pending_queries := update_first_key key
            (fun pq => { pq with client_queries := pq.client_queries ++ [cq] })
            s.pending_queries
          waiting_clients_count := s.waiting_clients_count + 1 })

/-- The pending-query key the handler builds, both on ingest (lines 228–231)
and on retry lookup (lines 342–345): the literal `custom_hash: (0, 0)` in both
places. -/
def pendingQueryKeyOf (q : NormalizedQuestion) : PendingQueryKey :=
  { normalized_question_key := q.key, custom_hash := (0, 0) }

/-- The per-live-index pending count read by the P2 arm of `pick_upstream`.
The source indexes the registry `HashMap` with a `usize` there (another
ill-scoped spot flagged by spec §9); the count function is passed explicitly,
reading the registry at the index used as key. -/
def pendingCountFn (s : HandlerState) : Nat → Nat :=
  fun i => ((lookup_key i s.upstream_servers).map
    (fun srv => srv.pending_queries_count)).getD 0

/-! ## Ingesting a client query (`fut_process_client_query`, lines 219–333)

Only the synchronous part of the method is modelled here; the timer callback
(the `or_else` closure, lines 314–331) is the separate `first_timeout_step`
transition below.  `live_at_ingest` is the snapshot read for the all-down
shortcut (line 224) and `live_at_pick` the live list consulted inside
`pick_upstream`; the registry lock is released between the two reads. -/

inductive ProcessResult
  | degraded (r : ClientResponse)
  | coalesced
  | panicked (msg : String)
  | droppedBuildFail
  | droppedBackendNotConfigured
  | sent (idx : Nat)
deriving DecidableEq, Repr

def bump_pending_count (servers : List (Nat × UpstreamServer)) (addr : Nat) :
    List (Nat × UpstreamServer) :=
  update_first_key addr
    (fun srv =>
      { srv with pending_queries_count := srv.pending_queries_count + 1 })
    servers

def fut_process_client_query (env : Env) (s : HandlerState) (cq : ClientQuery)
    (live_at_ingest live_at_pick : List Nat) (choice now : Nat) :
    ProcessResult × HandlerState :=
  if live_at_ingest.isEmpty then
    (ProcessResult.degraded (maybe_respond_with_stale_entry env cq), s)
  else
    let key := pendingQueryKeyOf cq.normalized_question
    let s1 := (cap_pending_queries s).2
    if (maybe_add_to_existing_pending_query s1 key cq).1 then
      (ProcessResult.coalesced, (maybe_add_to_existing_pending_query s1 key cq).2)
    else
      match new_pending_query env cq.normalized_question (pendingCountFn s1)
          live_at_pick false s1.config.lbmode with
      | BuildOutcome.panicked msg => (ProcessResult.panicked msg, s1)
      | BuildOutcome.err _ => (ProcessResult.droppedBuildFail, s1)
      | BuildOutcome.built _query_packet minimal idx =>
          let probe := maybe_send_probe_to_offline_servers s1.upstream_servers
            { candidates := cq.upstream_servers_for_query, choice, now }
          let s2 := { s1 with upstream_servers := probe.2 }
          let addr :=
            (cq.upstream_servers_for_query.getD idx default).socket_addr
          match lookup_key addr s2.upstream_servers with
          | none => (ProcessResult.droppedBackendNotConfigured, s2)
          | some _ =>
              let pending : PendingQuery :=
                { normalized_question_minimal := minimal
                  local_port := 0
                  client_queries := [cq]
                  ts := now
                  upstream_server_idx := idx
                  probed_socket_addr := probe.1.map (fun e => e.1)
                  custom_hash := (0, 0) }
              (ProcessResult.sent idx,
                { s2 with
                  waiting_clients_count := s2.waiting_clients_count + 1
                  upstream_servers := bump_pending_count s2.upstream_servers addr
                  pending_queries := insert_key key pending s2.pending_queries })

/-! ## Retry (`fut_retry_query`, lines 335–471, synchronous part)

The second-timeout closure (lines 434–467) is the separate
`second_timeout_step` below. -/

inductive RetryResult
  | noop
  | backendNotConfigured
  | panicked (msg : String)
  | retried (idx : Nat)
deriving DecidableEq, Repr

def fut_retry_query (env : Env) (s : HandlerState) (q : NormalizedQuestion)
    (upstream_servers_for_query : List UpstreamServerForQuery)
    (live_at_pick : List Nat) (now : Nat) : RetryResult × HandlerState :=
  let key := pendingQueryKeyOf q
  match lookup_key key s.pending_queries with
  | none => (RetryResult.noop, s)
  | some pq =>
      let prev_addr :=
        (upstream_servers_for_query.getD pq.upstream_server_idx default).socket_addr
      match lookup_key prev_addr s.upstream_servers with
      | none => (RetryResult.backendNotConfigured, s)
      | some _ =>
          -- line 365 computes `pending_queries_count.saturating_sub(1)` but
          -- discards the result, so the registry entry is left unchanged here
          match new_pending_query env q (pendingCountFn s) live_at_pick true
              s.config.lbmode with
          | BuildOutcome.panicked msg => (RetryResult.panicked msg, s)
          | BuildOutcome.err _ => (RetryResult.noop, s)
          | BuildOutcome.built _query_packet minimal idx =>
              let addr :=
                (upstream_servers_for_query.getD idx default).socket_addr
              match lookup_key addr s.upstream_servers with
              | none => (RetryResult.backendNotConfigured, s)
              | some _ =>
                  let s1 := { s with
                    upstream_servers := bump_pending_count s.upstream_servers addr }
                  (RetryResult.retried idx,
                    { s1 with
                      pending_queries := update_first_key key
                        (fun pq0 =>
                          { pq0 with
                            normalized_question_minimal := minimal
                            local_port := 0
                            ts := now
                            upstream_server_idx := idx })
                        s1.pending_queries })

/-- The registry mutation shared by both timeout closures: decrement the
targeted server's pending count (saturating) and record a failure; absent
keys are left untouched (the `None => {}` arm). -/
def record_timeout_failure (addr : Nat)
    (servers : List (Nat × UpstreamServer)) : List (Nat × UpstreamServer) :=
  update_first_key addr
    (fun srv => record_failure
      { srv with pending_queries_count := srv.pending_queries_count - 1 })
    servers

/-- The first-attempt timeout transition: the `or_else` closure at lines
314–331 first decrements the previously targeted server's pending count and
records a failure, and only then calls `fut_retry_query`. -/
def first_timeout_step (env : Env) (s : HandlerState) (q : NormalizedQuestion)
    (upstream_servers_for_query : List UpstreamServerForQuery)
    (prev_addr : Nat) (live_at_pick : List Nat) (now : Nat) :
    RetryResult × HandlerState :=
  let s1 := { s with
    upstream_servers := record_timeout_failure prev_addr s.upstream_servers }
  fut_retry_query env s1 q upstream_servers_for_query live_at_pick now

/-- The second-timeout transition: the `or_else` closure at lines 434–467.
It decrements the server's pending count and records a failure, removes the
entry, responds to every attached client from the degradation path and
decrements the waiting-clients counter by the entry's client count. -/
def second_timeout_step (env : Env) (s : HandlerState)
    (q : NormalizedQuestion) (addr : Nat) :
    List ClientResponse × HandlerState :=
  match lookup_key addr s.upstream_servers with
  | none => ([], s)
  | some _ =>
      let s1 := { s with
        upstream_servers := record_timeout_failure addr s.upstream_servers }
      let key := pendingQueryKeyOf q
      match lookup_key key s1.pending_queries with
      | some pq =>
          (maybe_respond_to_all_clients_with_stale_entry env pq,
            { s1 with
              pending_queries := erase_first_key key s1.pending_queries
              waiting_clients_count :=
                s1.waiting_clients_count - pq.client_queries.length })
      | none => ([], s1)

/-! ## Histories of handler operations -/

inductive Op
  | process (cq : ClientQuery) (live_at_ingest live_at_pick : List Nat)
      (choice now : Nat)
  | firstTimeout (q : NormalizedQuestion)
      (upstream_servers_for_query : List UpstreamServerForQuery)
      (prev_addr : Nat) (live_at_pick : List Nat) (now : Nat)
  | secondTimeout (q : NormalizedQuestion) (addr : Nat)

def step_op (env : Env) (s : HandlerState) : Op → HandlerState
  | Op.process cq li lp c n => (fut_process_client_query env s cq li lp c n).2
  | Op.firstTimeout q usfq prev lp n =>
      (first_timeout_step env s q usfq prev lp n).2
  | Op.secondTimeout q addr => (second_timeout_step env s q addr).2

def run_history (env : Env) (s : HandlerState) : List Op → HandlerState
  | [] => s
  | op :: rest => run_history env (step_op env s op) rest

/-- Total number of clients attached across all pending entries. -/
def sumClients (t : List (PendingQueryKey × PendingQuery)) : Nat :=
  (t.map fun p => p.2.client_queries.length).sum

/-- The counting invariant of spec §8: the waiting-clients counter equals the
number of attached clients. -/
def CountInv (s : HandlerState) : Prop :=
  sumClients s.pending_queries = s.waiting_clients_count

/-! ## Association-list lemmas -/

theorem lookup_key_update_first_key_self {K V : Type} [DecidableEq K]
    (k : K) (f : V → V) (t : List (K × V)) :
    lookup_key k (update_first_key k f t) = (lookup_key k t).map f := by
  induction t with
  | nil => simp [lookup_key, update_first_key]
  | cons p t ih =>
      by_cases h : p.1 = k
      · simp [lookup_key, update_first_key, h]
      · simp [lookup_key, update_first_key, h, ih]

theorem lookup_key_update_first_key_ne {K V : Type} [DecidableEq K]
    (k k' : K) (hne : k' ≠ k) (f : V → V) (t : List (K × V)) :
    lookup_key k' (update_first_key k f t) = lookup_key k' t := by
  induction t with
  | nil => simp [lookup_key, update_first_key]
  | cons p t ih =>
      obtain ⟨p1, p2⟩ := p
      by_cases h : p1 = k
      · subst h
        simp [lookup_key, update_first_key, Ne.symm hne]
      · simp [lookup_key, update_first_key, h, ih]

theorem erase_first_key_of_lookup_none {K V : Type} [DecidableEq K]
    (k : K) (t : List (K × V)) (h : lookup_key k t = none) :
    erase_first_key k t = t := by
  induction t with
  | nil => simp [erase_first_key]
  | cons p t ih =>
      by_cases hp : p.1 = k
      · simp [lookup_key, hp] at h
      · simp [lookup_key, hp] at h
        simp [erase_first_key, hp, ih h]

theorem sumClients_cons (k : PendingQueryKey) (pq : PendingQuery)
    (t : List (PendingQueryKey × PendingQuery)) :
    sumClients ((k, pq) :: t) = pq.client_queries.length + sumClients t := by
  simp [sumClients]

theorem sumClients_update_first_key (k : PendingQueryKey)
    (f : PendingQuery → PendingQuery) (pq : PendingQuery)
    (t : List (PendingQueryKey × PendingQuery))
    (h : lookup_key k t = some pq) :
    sumClients (update_first_key k f t) + pq.client_queries.length =
      sumClients t + (f pq).client_queries.length := by
  induction t with
  | nil => simp [lookup_key] at h
  | cons p t ih =>
      obtain ⟨p1, p2⟩ := p
      by_cases hp : p1 = k
      · subst hp
        simp [lookup_key] at h
        subst h
        simp [update_first_key, sumClients_cons]
        omega
      · simp [lookup_key, hp] at h
        simp [update_first_key, hp, sumClients_cons]
        have := ih h
        omega

theorem sumClients_erase_first_key (k : PendingQueryKey) (pq : PendingQuery)
    (t : List (PendingQueryKey × PendingQuery))
    (h : lookup_key k t = some pq) :
    sumClients (erase_first_key k t) + pq.client_queries.length =
      sumClients t := by
  induction t with
  | nil => simp [lookup_key] at h
  | cons p t ih =>
      obtain ⟨p1, p2⟩ := p
      by_cases hp : p1 = k
      · subst hp
        simp [lookup_key] at h
        subst h
        simp [erase_first_key, sumClients_cons]
        omega
      · simp [lookup_key, hp] at h
        simp [erase_first_key, hp, sumClients_cons]
        have := ih h
        omega

theorem length_le_sumClients (k : PendingQueryKey) (pq : PendingQuery)
    (t : List (PendingQueryKey × PendingQuery))
    (h : lookup_key k t = some pq) :
    pq.client_queries.length ≤ sumClients t := by
  have := sumClients_erase_first_key k pq t h
  omega

/-! ## Preservation of the counting invariant -/

theorem CountInv_cap (s : HandlerState) (h : CountInv s) :
    CountInv (cap_pending_queries s).2 := by
  unfold cap_pending_queries
  split
  · exact h
  · split
    · exact h
    · rename_i k pq rest heq
      simp only [CountInv] at h ⊢
      rw [heq, sumClients_cons] at h
      omega

theorem maybeAdd_false (s : HandlerState) (key : PendingQueryKey)
    (cq : ClientQuery)
    (h : (maybe_add_to_existing_pending_query s key cq).1 = false) :
    lookup_key key s.pending_queries = none ∧
      (maybe_add_to_existing_pending_query s key cq).2 = s := by
  unfold maybe_add_to_existing_pending_query at h ⊢
  cases hlk : lookup_key key s.pending_queries with
  | none => simp [hlk]
  | some pq => simp [hlk] at h

theorem CountInv_maybeAdd (s : HandlerState) (key : PendingQueryKey)
    (cq : ClientQuery) (h : CountInv s) :
    CountInv (maybe_add_to_existing_pending_query s key cq).2 := by
  unfold maybe_add_to_existing_pending_query
  cases hlk : lookup_key key s.pending_queries with
  | none => simpa using h
  | some pq =>
      simp only [CountInv] at h ⊢
      have := sumClients_update_first_key key
        (fun pq => { pq with client_queries := pq.client_queries ++ [cq] })
        pq s.pending_queries hlk
      simp at this
      omega

theorem CountInv_process (env : Env) (s : HandlerState) (cq : ClientQuery)
    (li lp : List Nat) (c n : Nat) (h : CountInv s) :
    CountInv (fut_process_client_query env s cq li lp c n).2 := by
  have h1 : CountInv (cap_pending_queries s).2 := CountInv_cap s h
  cases hli : li.isEmpty with
  | true => simp only [fut_process_client_query, hli]; exact h
  | false =>
      cases hatt : (maybe_add_to_existing_pending_query (cap_pending_queries s).2
          (pendingQueryKeyOf cq.normalized_question) cq).1 with
      | true =>
          simp only [fut_process_client_query, hli, hatt, Bool.false_eq_true,
            if_false, if_true]
          exact CountInv_maybeAdd _ _ _ h1
      | false =>
          obtain ⟨hnone, -⟩ := maybeAdd_false _ _ _ hatt
          cases hnp : new_pending_query env cq.normalized_question
              (pendingCountFn (cap_pending_queries s).2) lp false
              (cap_pending_queries s).2.config.lbmode with
          | panicked msg =>
              simp only [fut_process_client_query, hli, hatt, hnp,
                Bool.false_eq_true, if_false]
              exact h1
          | err e =>
              simp only [fut_process_client_query, hli, hatt, hnp,
                Bool.false_eq_true, if_false]
              exact h1
          | built qp minimal idx =>
              cases hlk : lookup_key
                  ((cq.upstream_servers_for_query.getD idx default).socket_addr)
                  (maybe_send_probe_to_offline_servers
                    (cap_pending_queries s).2.upstream_servers
                    { candidates := cq.upstream_servers_for_query,
                      choice := c, now := n }).2 with
              | none =>
                  simp only [fut_process_client_query, hli, hatt, hnp, hlk,
                    Bool.false_eq_true, if_false]
                  exact h1
              | some srv =>
                  simp only [fut_process_client_query, hli, hatt, hnp, hlk,
                    Bool.false_eq_true, if_false]
                  simp only [CountInv] at h1 ⊢
                  simp only [insert_key,
                    erase_first_key_of_lookup_none _ _ hnone, sumClients_cons]
                  simp only [List.length_cons, List.length_nil]
                  omega

theorem CountInv_retry (env : Env) (s : HandlerState)
    (q : NormalizedQuestion) (usfq : List UpstreamServerForQuery)
    (lp : List Nat) (n : Nat) (h : CountInv s) :
    CountInv (fut_retry_query env s q usfq lp n).2 := by
  cases hlk : lookup_key (pendingQueryKeyOf q) s.pending_queries with
  | none => simp only [fut_retry_query, hlk]; exact h
  | some pq =>
      simp only [fut_retry_query, hlk]
      split
      · exact h
      · split
        · exact h
        · exact h
        · rename_i qp minimal idx heq
          split
          · exact h
          · simp only [CountInv] at h ⊢
            have := sumClients_update_first_key (pendingQueryKeyOf q)
              (fun pq0 =>
                { pq0 with
                  normalized_question_minimal := minimal
                  local_port := 0
                  ts := n
                  upstream_server_idx := idx })
              pq s.pending_queries hlk
            simp at this
            omega

theorem CountInv_first_timeout (env : Env) (s : HandlerState)
    (q : NormalizedQuestion) (usfq : List UpstreamServerForQuery)
    (prev_addr : Nat) (lp : List Nat) (n : Nat) (h : CountInv s) :
    CountInv (first_timeout_step env s q usfq prev_addr lp n).2 := by
  unfold first_timeout_step
  exact CountInv_retry _ _ _ _ _ _ h

theorem CountInv_second_timeout (env : Env) (s : HandlerState)
    (q : NormalizedQuestion) (addr : Nat) (h : CountInv s) :
    CountInv (second_timeout_step env s q addr).2 := by
  cases hsrv : lookup_key addr s.upstream_servers with
  | none => simp only [second_timeout_step, hsrv]; exact h
  | some srv =>
      cases hlk : lookup_key (pendingQueryKeyOf q) s.pending_queries with
      | none => simp only [second_timeout_step, hsrv, hlk]; exact h
      | some pq =>
          simp only [second_timeout_step, hsrv, hlk]
          simp only [CountInv] at h ⊢
          have := sumClients_erase_first_key (pendingQueryKeyOf q) pq
            s.pending_queries hlk
          omega

theorem CountInv_step (env : Env) (s : HandlerState) (op : Op)
    (h : CountInv s) : CountInv (step_op env s op) := by
  cases op with
  | process cq li lp c n => exact CountInv_process env s cq li lp c n h
  | firstTimeout q usfq prev lp n =>
      exact CountInv_first_timeout env s q usfq prev lp n h
  | secondTimeout q addr => exact CountInv_second_timeout env s q addr h

theorem CountInv_run_history (env : Env) (s : HandlerState) (ops : List Op)
    (h : CountInv s) : CountInv (run_history env s ops) := by
  induction ops generalizing s with
  | nil => exact h
  | cons op rest ih => exact ih _ (CountInv_step env s op h)

/-! ## Probe rate-limiting lemmas -/

theorem getD_mem_of_lt {α : Type} (l : List α) (n : Nat) (d : α)
    (h : n < l.length) : l.getD n d ∈ l := by
  rw [List.getD_eq_getElem l d h]
  exact List.getElem_mem h

theorem lookup_key_stamp_probe_self (servers : List (Nat × UpstreamServer))
    (a now : Nat) :
    lookup_key a (stamp_probe servers a now) =
      (lookup_key a servers).map fun srv => { srv with last_probe_ts := some now } := by
  unfold stamp_probe
  exact lookup_key_update_first_key_self a _ servers

theorem lookup_key_stamp_probe_ne (servers : List (Nat × UpstreamServer))
    (a b now : Nat) (h : b ≠ a) :
    lookup_key b (stamp_probe servers a now) = lookup_key b servers := by
  unfold stamp_probe
  exact lookup_key_update_first_key_ne a b h _ servers

/-- Case analysis on one probe attempt: either nothing is sent and the
registry is untouched, or a probe goes to a configured address `a` whose
stored `last_probe_ts` (when present) is at least the probe delay in the
past, and `a`'s timestamp is stamped with the current time. -/
theorem probe_step_cases (servers : List (Nat × UpstreamServer))
    (st : ProbeStep) :
    maybe_send_probe_to_offline_servers servers st = (none, servers) ∨
    ∃ a srv, lookup_key a servers = some srv ∧
      (∀ t, srv.last_probe_ts = some t →
        UPSTREAM_PROBES_DELAY_MS ≤ st.now - t) ∧
      maybe_send_probe_to_offline_servers servers st =
        (some (a, st.now), stamp_probe servers a st.now) := by
  cases hc : st.candidates.isEmpty with
  | true => left; simp [maybe_send_probe_to_offline_servers, hc]
  | false =>
      cases hof : (st.candidates.filterMap fun u =>
          (lookup_key u.socket_addr servers).map
            fun srv => (u.socket_addr, srv)).isEmpty with
      | true => left; simp [maybe_send_probe_to_offline_servers, hc, hof]
      | false =>
          have hlen : 0 < (st.candidates.filterMap fun u =>
              (lookup_key u.socket_addr servers).map
                fun srv => (u.socket_addr, srv)).length := by
            cases hl : (st.candidates.filterMap fun u =>
                (lookup_key u.socket_addr servers).map
                  fun srv => (u.socket_addr, srv)) with
            | nil => rw [hl] at hof; simp at hof
            | cons x xs => simp
          have hmem : ((st.candidates.filterMap fun u =>
              (lookup_key u.socket_addr servers).map
                fun srv => (u.socket_addr, srv)).getD
              (st.choice % (st.candidates.filterMap fun u =>
                (lookup_key u.socket_addr servers).map
                  fun srv => (u.socket_addr, srv)).length) (0, default)) ∈
              (st.candidates.filterMap fun u =>
                (lookup_key u.socket_addr servers).map
                  fun srv => (u.socket_addr, srv)) :=
            getD_mem_of_lt _ _ _ (Nat.mod_lt _ hlen)
      -- unpack membership of the chosen pair in the filterMap
          rw [List.mem_filterMap] at hmem
          obtain ⟨u, -, hu⟩ := hmem
          rw [Option.map_eq_some'] at hu
          obtain ⟨srv0, hlku, hpair⟩ := hu
          cases hts : ((st.candidates.filterMap fun u =>
              (lookup_key u.socket_addr servers).map
                fun srv => (u.socket_addr, srv)).getD
              (st.choice % (st.candidates.filterMap fun u =>
                (lookup_key u.socket_addr servers).map
                  fun srv => (u.socket_addr, srv)).length)
              (0, default)).2.last_probe_ts with
          | none =>
              right
              refine ⟨u.socket_addr, srv0, hlku, ?_, ?_⟩
              · intro t ht
                rw [← hpair] at hts
                simp at hts
                rw [hts] at ht
                exact absurd ht (by simp)
              · simp only [maybe_send_probe_to_offline_servers, hc, hof, hts]
                rw [← hpair]
                simp
          | some t0 =>
              cases hlt : decide (st.now - t0 < UPSTREAM_PROBES_DELAY_MS) with
              | true =>
                  left
                  have hlt2 : st.now - t0 < UPSTREAM_PROBES_DELAY_MS :=
                    of_decide_eq_true hlt
                  simp only [maybe_send_probe_to_offline_servers, hc, hof, hts]
                  simp [hlt2]
              | false =>
                  right
                  have hge : ¬ st.now - t0 < UPSTREAM_PROBES_DELAY_MS :=
                    of_decide_eq_false hlt
                  refine ⟨u.socket_addr, srv0, hlku, ?_, ?_⟩
                  · intro t ht
                    rw [← hpair] at hts
                    simp at hts
                    rw [hts] at ht
                    cases ht
                    omega
                  · simp only [maybe_send_probe_to_offline_servers, hc, hof, hts]
                    rw [← hpair]
                    simp [hge]

theorem UPSTREAM_PROBES_DELAY_MS_pos : 0 < UPSTREAM_PROBES_DELAY_MS := by
  decide

/-- After a server's `last_probe_ts` reads `some t`, every later probe send to
that server in the trace happens at time `t + UPSTREAM_PROBES_DELAY_MS` or
later. -/
theorem run_probes_lower_bound (steps : List ProbeStep) :
    ∀ (servers : List (Nat × UpstreamServer)) (a t : Nat)
      (srv : UpstreamServer),
      lookup_key a servers = some srv → srv.last_probe_ts = some t →
      ∀ e ∈ run_probes servers steps, e.1 = a →
        t + UPSTREAM_PROBES_DELAY_MS ≤ e.2 := by
  have hD := UPSTREAM_PROBES_DELAY_MS_pos
  induction steps with
  | nil =>
      intro servers a t srv _ _ e he
      simp [run_probes] at he
  | cons st rest ih =>
      intro servers a t srv hlk hts e he hea
      rcases probe_step_cases servers st with hnone | ⟨b, srv2, hlkb, hdel, hsend⟩
      · rw [run_probes, hnone] at he
        exact ih servers a t srv hlk hts e he hea
      · rw [run_probes, hsend] at he
        rcases List.mem_cons.mp he with hhead | htail
        · subst hhead
          simp only at hea
          subst hea
          rw [hlk] at hlkb
          cases hlkb
          have := hdel t hts
          simp only
          omega
        · by_cases hba : b = a
          · subst hba
            rw [hlk] at hlkb
            cases hlkb
            have hstep := hdel t hts
            have hnew : lookup_key b (stamp_probe servers b st.now) =
                some { srv with last_probe_ts := some st.now } := by
              rw [lookup_key_stamp_probe_self, hlk]
              rfl
            have := ih _ b st.now _ hnew rfl e htail hea
            omega
          · have hnew : lookup_key a (stamp_probe servers b st.now) =
                some srv := by
              rw [lookup_key_stamp_probe_ne _ _ _ _ (fun h => hba h.symm), hlk]
            exact ih _ a t srv hnew hts e htail hea

/-- Consecutive probe sends to the same address are separated by at least the
probe delay. -/
theorem run_probes_chain (steps : List ProbeStep) :
    ∀ (servers : List (Nat × UpstreamServer)) (a : Nat),
      List.Chain'
        (fun e1 e2 : Nat × Nat => e1.2 + UPSTREAM_PROBES_DELAY_MS ≤ e2.2)
        ((run_probes servers steps).filter fun e => decide (e.1 = a)) := by
  have hD := UPSTREAM_PROBES_DELAY_MS_pos
  induction steps with
  | nil => intro servers a; simp [run_probes]
  | cons st rest ih =>
      intro servers a
      rcases probe_step_cases servers st with hnone | ⟨b, srv2, hlkb, hdel, hsend⟩
      · rw [run_probes, hnone]
        exact ih servers a
      · rw [run_probes, hsend]
        by_cases hba : b = a
        · subst hba
          rw [List.filter_cons_of_pos (by simp)]
          rw [List.chain'_cons']
          constructor
          · intro y hy
            have hy2 : y ∈ (run_probes (stamp_probe servers b st.now) rest).filter
                (fun e => decide (e.1 = b)) := List.mem_of_mem_head? hy
            rw [List.mem_filter] at hy2
            obtain ⟨hy3, hy4⟩ := hy2
            have hnew : lookup_key b (stamp_probe servers b st.now) =
                some { srv2 with last_probe_ts := some st.now } := by
              rw [lookup_key_stamp_probe_self, hlkb]
              rfl
            exact run_probes_lower_bound rest _ b st.now _ hnew rfl y hy3
              (of_decide_eq_true hy4)
          · exact ih _ b
        · rw [List.filter_cons_of_neg (by simp [hba])]
          exact ih _ a

/-! ## Concrete sample objects used by witnesses and counterexamples -/

def sampleQuestion : NormalizedQuestion :=
  { qname := [3, 1, 2], qtype := 1, dnssec := false, tid := 7 }

def sampleMinimal : NormalizedQuestionMinimal := { tid := 8 }

def sampleClient : ClientQuery :=
  { normalized_question := sampleQuestion
    custom_hash := (0, 0)
    upstream_servers_for_query := [{ socket_addr := 1 }] }

def sampleEnv : Env :=
  { cache := fun _ _ => none
    build_query_packet := fun q => Except.ok ([0], { tid := q.tid + 1 })
    build_servfail_packet := fun _ => Except.ok [1]
    jumphasher := fun _ _ => 0 }

def samplePending : PendingQuery :=
  { normalized_question_minimal := sampleMinimal
    local_port := 0
    client_queries := [sampleClient]
    ts := 0
    upstream_server_idx := 0
    probed_socket_addr := none
    custom_hash := (0, 0) }

/-! ## Claims -/

/-- C5: at every quiescent point of every history of handler operations
(ingest with its admission-eviction and coalesce-attach and new-pending
insert, first-timeout retry, second-timeout removal), the sum over all
`PendingQuery` entries of the length of their `client_queries` vector equals
the global `waiting_clients_count` counter. -/
theorem spec_C5_waiting_clients_invariant (env : Env) (cfg : Config)
    (servers0 : List (Nat × UpstreamServer)) (ops : List Op) :
    sumClients (run_history env
      { config := cfg, pending_queries := [], waiting_clients_count := 0,
        upstream_servers := servers0 } ops).pending_queries =
    (run_history env
      { config := cfg, pending_queries := [], waiting_clients_count := 0,
        upstream_servers := servers0 } ops).waiting_clients_count :=
  CountInv_run_history env _ ops (by simp [CountInv, sumClients])

/-- C7: for every upstream server address, the probe send events of any
sequence of probe attempts are pairwise separated by at least
`UPSTREAM_PROBES_DELAY_MS`: a probe is skipped while the stored
`last_probe_ts` is less than the delay ago, and a sent probe stamps
`last_probe_ts` with the current time (the two mechanisms proved in
`probe_step_cases` and propagated along the trace here). -/
theorem spec_C7_probe_rate_limit (servers : List (Nat × UpstreamServer))
    (steps : List ProbeStep) (a : Nat) :
    List.Pairwise
      (fun e1 e2 : Nat × Nat => e1.2 + UPSTREAM_PROBES_DELAY_MS ≤ e2.2)
      ((run_probes servers steps).filter fun e => decide (e.1 = a)) := by
  letI : IsTrans (Nat × Nat)
      (fun e1 e2 : Nat × Nat => e1.2 + UPSTREAM_PROBES_DELAY_MS ≤ e2.2) :=
    ⟨fun x y z h1 h2 => by omega⟩
  exact List.chain'_iff_pairwise.mp (run_probes_chain steps servers a)

/-- C8: in Uniform mode, for every question and every duplicate-free live
list of length at least 2, the upstream picked with `is_retry = true` differs
from the one picked with `is_retry = false` (the retry index is the jumphash
index plus one modulo the live count).  The jump hasher's contract (spec
glossary: it maps a key to one of `live_count` buckets) is the `hslot`
hypothesis. -/
theorem spec_C8_uniform_retry_differs (q : NormalizedQuestion)
    (pending_count : Nat → Nat) (live : List Nat)
    (jumphasher : List Nat → Nat → Nat)
    (hnd : live.Nodup) (hlen : 2 ≤ live.length)
    (hslot : jumphasher q.qname live.length < live.length) :
    pick_upstream q pending_count live jumphasher true
        LoadBalancingMode.Uniform ≠
      pick_upstream q pending_count live jumphasher false
        LoadBalancingMode.Uniform := by
  unfold pick_upstream
  have h0 : ¬ live.length = 0 := by omega
  simp only [h0, if_false, if_true, reduceIte]
  intro hcontra
  simp only [Except.ok.injEq] at hcontra
  rw [if_neg (show ¬ (false = true) by decide)] at hcontra
  have hjlt : (jumphasher q.qname live.length + 1) % live.length <
      live.length := Nat.mod_lt _ (by omega)
  rw [List.getD_eq_getElem live 0 hjlt, List.getD_eq_getElem live 0 hslot]
    at hcontra
  have heq := (List.Nodup.getElem_inj_iff hnd).mp hcontra
  rcases Nat.lt_or_ge (jumphasher q.qname live.length + 1) live.length with
    hlt | hge
  · rw [Nat.mod_eq_of_lt hlt] at heq
    omega
  · have hexact : jumphasher q.qname live.length + 1 = live.length := by omega
    rw [hexact, Nat.mod_self] at heq
    omega

/-- C8 witness: with live list `[5, 9]` and a jump hasher returning slot 0,
the retry pick differs from the primary pick. -/
theorem spec_C8_witness :
    pick_upstream sampleQuestion (fun _ => 0) [5, 9] (fun _ _ => 0) true
        LoadBalancingMode.Uniform ≠
      pick_upstream sampleQuestion (fun _ => 0) [5, 9] (fun _ _ => 0) false
        LoadBalancingMode.Uniform :=
  spec_C8_uniform_retry_differs sampleQuestion (fun _ => 0) [5, 9]
    (fun _ _ => 0) (by decide) (by decide) (by decide)

/-- C9: admission control.  Below the `max_waiting_clients` threshold the
call evicts nothing and reports `false`; at or above the threshold with a
non-empty table it removes one entry (the first), decrements
`waiting_clients_count` by exactly that entry's client count (exactness from
the counting invariant), and reports `true`. -/
theorem spec_C9_admission_control (s : HandlerState) :
    (s.waiting_clients_count < s.config.max_waiting_clients →
      cap_pending_queries s = (false, s)) ∧
    (s.config.max_waiting_clients ≤ s.waiting_clients_count →
      ∀ k pq rest, s.pending_queries = (k, pq) :: rest →
        sumClients s.pending_queries = s.waiting_clients_count →
        cap_pending_queries s =
          (true,
            { s with
              pending_queries := rest
              waiting_clients_count :=
                s.waiting_clients_count - pq.client_queries.length }) ∧
          s.waiting_clients_count - pq.client_queries.length +
            pq.client_queries.length = s.waiting_clients_count) := by
  constructor
  · intro hlt
    unfold cap_pending_queries
    simp [hlt]
  · intro hge k pq rest heq hinv
    have hnlt : ¬ s.waiting_clients_count < s.config.max_waiting_clients := by
      omega
    constructor
    · unfold cap_pending_queries
      simp only [hnlt, if_false, heq]
    · rw [heq, sumClients_cons] at hinv
      omega

/-- C9 witness: a state under the threshold is untouched; a state at the
threshold with one two-client entry is evicted with the counter decremented
by exactly 2. -/
theorem spec_C9_witness :
    cap_pending_queries
      { config := { max_waiting_clients := 5, lbmode := LoadBalancingMode.Fallback }
        pending_queries := []
        waiting_clients_count := 0
        upstream_servers := [] } =
      (false,
        { config := { max_waiting_clients := 5, lbmode := LoadBalancingMode.Fallback }
          pending_queries := []
          waiting_clients_count := 0
          upstream_servers := [] }) ∧
    (cap_pending_queries
      { config := { max_waiting_clients := 1, lbmode := LoadBalancingMode.Fallback }
        pending_queries := [(pendingQueryKeyOf sampleQuestion,
          { samplePending with client_queries := [sampleClient, sampleClient] })]
        waiting_clients_count := 2
        upstream_servers := [] } =
      (true,
        { config := { max_waiting_clients := 1, lbmode := LoadBalancingMode.Fallback }
          pending_queries := []
          waiting_clients_count := 0
          upstream_servers := [] }) ∧
      2 - 2 + 2 = 2) := by
  constructor
  · exact (spec_C9_admission_control _).1 (by decide)
  · exact (spec_C9_admission_control _).2 (by decide)
      (pendingQueryKeyOf sampleQuestion)
      { samplePending with client_queries := [sampleClient, sampleClient] }
      [] rfl (by decide)

/-- C10: both key-construction sites pin `custom_hash` to `(0, 0)` (as does
`PendingQueryKey::new`), so two client queries with equal normalized question
keys build identical pending keys — whatever their own `custom_hash` values —
and the second attaches to the first one's pending entry. -/
theorem spec_C10_custom_hash_zero (cq1 cq2 : ClientQuery)
    (hk : cq1.normalized_question.key = cq2.normalized_question.key) :
    pendingQueryKeyOf cq1.normalized_question =
        pendingQueryKeyOf cq2.normalized_question ∧
    (pendingQueryKeyOf cq1.normalized_question).custom_hash = (0, 0) ∧
    (∀ k, (PendingQueryKey.new k).custom_hash = (0, 0)) ∧
    ∀ (s : HandlerState) (pq : PendingQuery),
      lookup_key (pendingQueryKeyOf cq1.normalized_question)
          s.pending_queries = some pq →
      maybe_add_to_existing_pending_query s
          (pendingQueryKeyOf cq2.normalized_question) cq2 =
        (true,
          { s with
            pending_queries := update_first_key
              (pendingQueryKeyOf cq2.normalized_question)
              (fun pq0 =>
                { pq0 with client_queries := pq0.client_queries ++ [cq2] })
              s.pending_queries
            waiting_clients_count := s.waiting_clients_count + 1 }) := by
  have hkeys : pendingQueryKeyOf cq1.normalized_question =
      pendingQueryKeyOf cq2.normalized_question := by
    unfold pendingQueryKeyOf
    rw [hk]
  refine ⟨hkeys, rfl, fun k => rfl, ?_⟩
  intro s pq hlk
  rw [← hkeys]
  unfold maybe_add_to_existing_pending_query
  rw [hlk]

/-- C10 witness: two clients with the same question but different
`custom_hash` values coalesce into the same entry. -/
theorem spec_C10_witness :
    maybe_add_to_existing_pending_query
      { config := { max_waiting_clients := 5, lbmode := LoadBalancingMode.Fallback }
        pending_queries := [(pendingQueryKeyOf sampleQuestion, samplePending)]
        waiting_clients_count := 1
        upstream_servers := [] }
      (pendingQueryKeyOf sampleQuestion)
      { sampleClient with custom_hash := (3, 4) } =
    (true,
      { config := { max_waiting_clients := 5, lbmode := LoadBalancingMode.Fallback }
        pending_queries := [(pendingQueryKeyOf sampleQuestion,
          { samplePending with client_queries :=
            [sampleClient, { sampleClient with custom_hash := (3, 4) }] })]
        waiting_clients_count := 2
        upstream_servers := [] }) := by
  have h := (spec_C10_custom_hash_zero
    { sampleClient with custom_hash := (1, 2) }
    { sampleClient with custom_hash := (3, 4) } rfl).2.2.2
    { config := { max_waiting_clients := 5, lbmode := LoadBalancingMode.Fallback }
      pending_queries := [(pendingQueryKeyOf sampleQuestion, samplePending)]
      waiting_clients_count := 1
      upstream_servers := [] }
    samplePending rfl
  simpa [update_first_key, samplePending] using h

theorem maybeAdd_of_none (s : HandlerState) (key : PendingQueryKey)
    (cq : ClientQuery) (h : lookup_key key s.pending_queries = none) :
    maybe_add_to_existing_pending_query s key cq = (false, s) := by
  unfold maybe_add_to_existing_pending_query
  rw [h]

def emptyState : HandlerState :=
  { config := { max_waiting_clients := 10, lbmode := LoadBalancingMode.Uniform }
    pending_queries := []
    waiting_clients_count := 0
    upstream_servers := [] }

def stalePacket : Packet := [9, 9]

def envStale : Env := { sampleEnv with cache := fun _ _ => some stalePacket }

/-- C1 counterexample: the live set is non-empty at ingest (`[0]`), the live
list consulted by `pick_upstream` is empty so the build-attempt step fails
with AllDown, and a stale cache entry exists for the fingerprint — yet the
handler's result is the silent `droppedBuildFail` (line 245's
`Err(_) => return Box::new(future::ok(()))`), not the degraded stale
response the claim requires. -/
theorem spec_C1_counterexample :
    (fut_process_client_query envStale emptyState sampleClient [0] [] 0 0).1 =
      ProcessResult.droppedBuildFail ∧
    envStale.cache sampleClient.normalized_question sampleClient.custom_hash =
      some stalePacket ∧
    (fut_process_client_query envStale emptyState sampleClient [0] [] 0 0).1 ≠
      ProcessResult.degraded (ClientResponse.stale stalePacket) := by
  decide

/-- C1 amended: when the live set is non-empty at ingest but the load
balancer fails with AllDown during the build-attempt step, the handler drops
the client silently — no response is sent, no pending entry is created, and
the state is exactly the one admission control left behind. -/
theorem spec_C1_amended (env : Env) (s : HandlerState) (cq : ClientQuery)
    (live_at_ingest live_at_pick : List Nat) (choice now : Nat) (e : String)
    (hli : live_at_ingest.isEmpty = false)
    (hnone : lookup_key (pendingQueryKeyOf cq.normalized_question)
      (cap_pending_queries s).2.pending_queries = none)
    (hnp : new_pending_query env cq.normalized_question
      (pendingCountFn (cap_pending_queries s).2) live_at_pick false
      (cap_pending_queries s).2.config.lbmode = BuildOutcome.err e) :
    fut_process_client_query env s cq live_at_ingest live_at_pick choice now =
      (ProcessResult.droppedBuildFail, (cap_pending_queries s).2) := by
  have hatt : (maybe_add_to_existing_pending_query (cap_pending_queries s).2
      (pendingQueryKeyOf cq.normalized_question) cq).1 = false := by
    rw [maybeAdd_of_none _ _ _ hnone]
  simp only [fut_process_client_query, hli, hatt, hnp, Bool.false_eq_true,
    if_false]

/-- C1 witness for the amended claim, at the counterexample's input. -/
theorem spec_C1_witness :
    fut_process_client_query envStale emptyState sampleClient [0] [] 0 0 =
      (ProcessResult.droppedBuildFail, emptyState) :=
  spec_C1_amended envStale emptyState sampleClient [0] [] 0 0
    "All upstream servers are down" (by decide) (by decide) (by decide)

def serverIdle : UpstreamServer :=
  { pending_queries_count := 1
    last_probe_ts := none
    failures := 0
    offline := false }

/-- A configured server that is online and idle. -/
def serverOnline : UpstreamServer :=
  { pending_queries_count := 0
    last_probe_ts := none
    failures := 0
    offline := false }

/-- State of `serverIdle` after the first-timeout prologue: the pending count is
decremented and one failure is recorded. -/
def serverFailedOnce : UpstreamServer :=
  { pending_queries_count := 0
    last_probe_ts := none
    failures := 1
    offline := false }

def sRetry : HandlerState :=
  { config := { max_waiting_clients := 10, lbmode := LoadBalancingMode.Uniform }
    pending_queries := [(pendingQueryKeyOf sampleQuestion, samplePending)]
    waiting_clients_count := 1
    upstream_servers := [(1, serverIdle)] }

/-- C2 counterexample: a pending entry with one attached client times out,
the retry rebuild fails with AllDown (empty live list), and the transition
result is `noop` with the entry still present in the table (lines 379–381
silently return) — the attached client is never sent a degraded response and
the entry is not removed, contrary to the claim. -/
theorem spec_C2_counterexample :
    (first_timeout_step sampleEnv sRetry sampleQuestion
      [{ socket_addr := 1 }] 1 [] 5).1 = RetryResult.noop ∧
    lookup_key (pendingQueryKeyOf sampleQuestion)
      ((first_timeout_step sampleEnv sRetry sampleQuestion
        [{ socket_addr := 1 }] 1 [] 5).2.pending_queries) =
      some samplePending := by
  decide

/-- C2 amended: when the retry rebuild fails with AllDown, `fut_retry_query`
abandons the retry silently — nothing is sent to any attached client, the
entry remains in the PendingTable, and the handler state is returned
unchanged (the only mutation of the whole timeout transition is the
prologue's failure recording on the previously targeted server). -/
theorem spec_C2_amended (env : Env) (s : HandlerState)
    (q : NormalizedQuestion) (usfq : List UpstreamServerForQuery)
    (lp : List Nat) (now : Nat) (pq : PendingQuery) (srv : UpstreamServer)
    (e : String)
    (hlk : lookup_key (pendingQueryKeyOf q) s.pending_queries = some pq)
    (hsrv : lookup_key
      (usfq.getD pq.upstream_server_idx default).socket_addr
      s.upstream_servers = some srv)
    (hnp : new_pending_query env q (pendingCountFn s) lp true
      s.config.lbmode = BuildOutcome.err e) :
    fut_retry_query env s q usfq lp now = (RetryResult.noop, s) := by
  simp only [fut_retry_query, hlk, hsrv, hnp]

/-- C2 witness for the amended claim, at the counterexample's input. -/
theorem spec_C2_witness :
    fut_retry_query sampleEnv sRetry sampleQuestion [{ socket_addr := 1 }]
      [] 5 = (RetryResult.noop, sRetry) :=
  spec_C2_amended sampleEnv sRetry sampleQuestion [{ socket_addr := 1 }]
    [] 5 samplePending serverIdle "All upstream servers are down"
    (by decide) (by decide) (by decide)

/-- C3: the probe-target filter (lines 188–197) keeps every candidate that is
configured in the registry and never consults its offline state, so a probe
can be sent to an online server.  Here the only candidate, server 1, is
online (`offline = false`), the candidate∩offline intersection is empty —
the claim then requires that no probe be sent — yet the code sends a probe
to server 1. -/
theorem spec_C3_probes_online_server :
    (maybe_send_probe_to_offline_servers [(1, serverOnline)]
      { candidates := [{ socket_addr := 1 }], choice := 0, now := 0 }).1 =
      some (1, 0) ∧
    ([(1, serverOnline)].filter fun p => p.2.offline).isEmpty = true := by
  decide

def envBuildFail : Env :=
  { sampleEnv with build_query_packet := fun _ => Except.error () }

/-- C4 counterexample: when building the upstream query packet fails, the
handler's result is the `expect` panic "Unable to build a new query packet"
(line 530), not a silent no-response drop. -/
theorem spec_C4_counterexample :
    (fut_process_client_query envBuildFail emptyState sampleClient
      [0] [0] 0 0).1 =
      ProcessResult.panicked "Unable to build a new query packet" ∧
    (fut_process_client_query envBuildFail emptyState sampleClient
      [0] [0] 0 0).1 ≠ ProcessResult.droppedBuildFail := by
  decide

/-- C4 amended: a failing upstream-query packet build makes the core panic
(the `expect` in `new_pending_query`); the silent drop with no response —
and no panic — is the behavior of the degradation path when the SERVFAIL
packet build fails. -/
theorem spec_C4_amended :
    (∀ (env : Env) (s : HandlerState) (cq : ClientQuery)
        (li lp : List Nat) (c n : Nat),
      li.isEmpty = false →
      lookup_key (pendingQueryKeyOf cq.normalized_question)
        (cap_pending_queries s).2.pending_queries = none →
      env.build_query_packet cq.normalized_question = Except.error () →
      (fut_process_client_query env s cq li lp c n).1 =
        ProcessResult.panicked "Unable to build a new query packet") ∧
    (∀ (env : Env) (cq : ClientQuery),
      env.cache cq.normalized_question cq.custom_hash = none →
      env.build_servfail_packet cq.normalized_question = Except.error () →
      maybe_respond_with_stale_entry env cq = ClientResponse.noResponse) := by
  constructor
  · intro env s cq li lp c n hli hnone hbuild
    have hatt : (maybe_add_to_existing_pending_query (cap_pending_queries s).2
        (pendingQueryKeyOf cq.normalized_question) cq).1 = false := by
      rw [maybeAdd_of_none _ _ _ hnone]
    have hnp : new_pending_query env cq.normalized_question
        (pendingCountFn (cap_pending_queries s).2) lp false
        (cap_pending_queries s).2.config.lbmode =
        BuildOutcome.panicked "Unable to build a new query packet" := by
      unfold new_pending_query
      rw [hbuild]
    simp only [fut_process_client_query, hli, hatt, hnp, Bool.false_eq_true,
      if_false]
  · intro env cq hcache hsf
    unfold maybe_respond_with_stale_entry
    rw [hcache, hsf]

def envServfailFail : Env :=
  { sampleEnv with build_servfail_packet := fun _ => Except.error () }

/-- C4 witness for the amended claim: the panic at a concrete failing build,
and the silent drop when the SERVFAIL build fails during degradation. -/
theorem spec_C4_witness :
    (fut_process_client_query envBuildFail emptyState sampleClient
      [0] [0] 0 0).1 =
      ProcessResult.panicked "Unable to build a new query packet" ∧
    maybe_respond_with_stale_entry envServfailFail sampleClient =
      ClientResponse.noResponse :=
  ⟨spec_C4_amended.1 envBuildFail emptyState sampleClient [0] [0] 0 0
      (by decide) (by decide) rfl,
    spec_C4_amended.2 envServfailFail sampleClient rfl rfl⟩

def sC6 : HandlerState :=
  { config := { max_waiting_clients := 10, lbmode := LoadBalancingMode.Uniform }
    pending_queries := []
    waiting_clients_count := 0
    upstream_servers := [(3, serverIdle)] }

/-- C6 counterexample: the pending entry for the fingerprint is absent, yet
the first-timeout transition (whose prologue at lines 314–331 runs before the
table lookup) decrements the previously targeted server's pending count from
1 to 0 and bumps its consecutive-failure counter from 0 to 1 — the counters
are not left unchanged as the claim states. -/
theorem spec_C6_counterexample :
    (first_timeout_step sampleEnv sC6 sampleQuestion [{ socket_addr := 3 }]
      3 [] 0).1 = RetryResult.noop ∧
    lookup_key 3 ((first_timeout_step sampleEnv sC6 sampleQuestion
      [{ socket_addr := 3 }] 3 [] 0).2.upstream_servers) =
      some serverFailedOnce ∧
    serverFailedOnce ≠ serverIdle := by
  decide

/-- C6 amended: when the pending entry is absent, the retry lookup itself is
a pure no-op (`fut_retry_query` returns the state unchanged and sends
nothing), but the enclosing timeout transition has already decremented the
previously targeted server's `pending_queries_count` and recorded a failure
before that lookup; nothing else changes. -/
theorem spec_C6_amended (env : Env) (s : HandlerState)
    (q : NormalizedQuestion) (usfq : List UpstreamServerForQuery)
    (prev_addr : Nat) (lp : List Nat) (n : Nat)
    (habs : lookup_key (pendingQueryKeyOf q) s.pending_queries = none) :
    fut_retry_query env s q usfq lp n = (RetryResult.noop, s) ∧
    first_timeout_step env s q usfq prev_addr lp n =
      (RetryResult.noop,
        { s with upstream_servers :=
            record_timeout_failure prev_addr s.upstream_servers }) := by
  constructor
  · simp only [fut_retry_query, habs]
  · unfold first_timeout_step
    simp only [fut_retry_query, habs]

/-- C6 witness for the amended claim, at the counterexample's input. -/
theorem spec_C6_witness :
    fut_retry_query sampleEnv sC6 sampleQuestion [{ socket_addr := 3 }]
      [] 0 = (RetryResult.noop, sC6) ∧
    first_timeout_step sampleEnv sC6 sampleQuestion [{ socket_addr := 3 }]
      3 [] 0 =
      (RetryResult.noop,
        { sC6 with upstream_servers :=
            record_timeout_failure 3 sC6.upstream_servers }) :=
  spec_C6_amended sampleEnv sC6 sampleQuestion [{ socket_addr := 3 }] 3 [] 0
    (by decide)

end EdgeDNS
